import Mathlib

/-!
Shallow embedding of `src/libs/swig_functions.js` (the runtime data-query and
pagination layer handed to swig templates) together with proofs checking the
natural-language specification against it.

Modelling conventions:
* JS objects used as string-keyed dictionaries become ordered association
  lists `List (String × _)`; `List.lookup` models property access and
  first-match update models property assignment (JS objects have unique keys).
* JS `undefined` becomes `Option.none`; JS exceptions (`throw`, `TypeError`)
  become `Except.error`.  Every stateful function returns its result together
  with the post-state, since the source mutates fields of the shared closure
  state (`self`).
* `Date.now()` and `Date.parse` are ambient JS facilities, not code of this
  repository; they are passed in as an environment `JsEnv`.  `Date.parse`
  returning `NaN` is modelled by `Option.none` (note `NaN > x` is `false` in
  JS, so an unparseable date is *not* filtered out).
-/

namespace LightbankCRM

/-- JS truthiness of an optional string value: `undefined` (absent) and the
empty string are falsy, every other string is truthy. -/
def truthyS : Option String → Bool
  | none => false
  | some s => !(s == "")

/-- a content record, as stored in the content store.  The fields the source
inspects (`publish_date`, `slug`, `name`) and the annotation fields it writes
(`_type`, `_id`, here `tyF`/`idF` since Lean names cannot start with `_`) are
explicit; `others` stands for the remaining author-defined fields. -/
structure Item where
  publish_date : Option String := none
  slug : Option String := none
  name : Option String := none
  /-- the `_type` annotation field -/
  tyF : Option String := none
  /-- the `_id` annotation field -/
  idF : Option String := none
  others : List (String × String) := []
deriving DecidableEq, Repr

/-- the `{}` sentinel that `getItem` returns for missing or invisible data. -/
def emptyItem : Item := {}

/-- lodash `_.isEmpty` on an item-shaped object: true iff it has no own keys. -/
def Item.isEmpty (it : Item) : Bool := decide (it = emptyItem)

/-- per-type metadata (`typeInfo[slug]`): display name and the `oneOff` flag. -/
structure TypeInfo where
  name : Option String := none
  oneOff : Bool := false
deriving DecidableEq, Repr

/-- the collection of one type in the content store: item key ↦ item. -/
abbrev Collection := List (String × Item)

/-- the content store: type slug ↦ collection. -/
abbrev Store := List (String × Collection)

/-- the settings table (`settings.general` etc.). -/
abbrev Settings := List (String × List (String × String))

/-- result of `getCombined`: normally an array of items, but a `oneOff` type
replaces the accumulator with its store object verbatim. -/
inductive Combined where
  | arr : List Item → Combined
  | obj : Collection → Combined
deriving DecidableEq, Repr

/-- the mutable closure state of `swigFunctions` (the fields of `self`). -/
structure SwigState where
  data : Store := []
  settings : Settings := []
  typeInfo : List (String × TypeInfo) := []
  /-- `self.paginate`, the "a paginate call already happened" flag -/
  paginate : Bool := false
  curPage : Int := 1
  maxPage : Int := -1
  pageUrl : String := "page-"
  paginationBaseUrl : Option String := none
  cachedData : List (String × Combined) := []
  CURRENT_URL : String := "/"
deriving DecidableEq, Repr

/-- ambient JS environment: the current clock and `Date.parse`; `none` models
a `NaN` parse result. -/
structure JsEnv where
  now : Int
  dparse : String → Option Int

/-- updates the first binding of key `k` in an association list (JS objects
have unique keys, so this models property assignment on an existing key). -/
def updFirst (k : String) (f : α → α) : List (String × α) → List (String × α)
  | [] => []
  | (k', v) :: rest =>
    if k' = k then (k', f v) :: rest else (k', v) :: updFirst k f rest

/-- models JS `s.split(" ")`: splits on every single space character,
producing empty tokens between adjacent spaces and at the ends. -/
def splitSp : List Char → List Char → List String
  | [], cur => [String.mk cur.reverse]
  | c :: rest, cur =>
    if c = ' ' then String.mk cur.reverse :: splitSp rest []
    else splitSp rest (c :: cur)

/-- models `type.split(" ", 2)`: JS `split` with limit 2 truncates the token
list to the first two tokens (it does not keep the remainder in the second). -/
def jsSplit2 (s : String) : List String := (splitSp s.data []).take 2

/-- models the comma join `names.join` of the argument list. -/
def jsJoin : List String → String
  | [] => ""
  | [n] => n
  | n :: rest => n ++ "," ++ jsJoin rest

/-- a JS value in the first-argument position of `getItem`: `undefined`, a string,
or an array of relation strings. -/
inductive JsArg where
  | undef
  | str (s : String)
  | arr (l : List String)
deriving DecidableEq, Repr

/-- JS truthiness of a `getItem` first argument (arrays are always truthy). -/
def jsTruthyArg : JsArg → Bool
  | .undef => false
  | .str s => !(s == "")
  | .arr _ => true

/-- JS property-key coercion (`toString`) used when a non-string shows up as
an object index. -/
def jsKeyOf : JsArg → String
  | .undef => "undefined"
  | .str s => s
  | .arr l => jsJoin l

/-- the publish-date visibility test of `getItem` lines 127-138 (the same
block is duplicated verbatim inside the filter of `getCombined`, lines 193-206):
falsy `publish_date` fails; a parsed date greater than `now + 60000` ms
fails; anything else (including a `NaN` parse) passes. -/
def pubOk (env : JsEnv) (it : Item) : Bool :=
  match it.publish_date with
  | none => false
  | some s =>
    if s = "" then false
    else
      match env.dparse s with
      | none => true
      | some t => if t > env.now + 60000 then false else true

/-- core of `getItem` after the (type, key) pair is resolved: lines 117-141.
Note line 121 `var item = self.data[type][key]` throws a `TypeError` when the
type is absent from the store (`self.data[type]` is `undefined`), and line
140 `item._type = type` writes the annotation onto the stored item itself. -/
def getItemCore (env : JsEnv) (st : SwigState) (type key : String) :
    Except Unit Item × SwigState :=
  match List.lookup type st.typeInfo with
  | none => (.ok emptyItem, st)
  | some ti =>
    match List.lookup type st.data with
    | none => (.error (), st)
    | some coll =>
      match List.lookup key coll with
      | none => (.ok emptyItem, st)
      | some item =>
        if ti.oneOff || pubOk env item then
          let item2 := { item with tyF := some type }
          (.ok item2,
           { st with data := updFirst type (updFirst key (fun _ => item2)) st.data })
        else (.ok emptyItem, st)

/-- `getItem(type, key)`, lines 95-142: argument resolution (falsy type →
`{}`; absent key → unwrap a non-empty array to its head, split the relation
string on spaces with limit 2, require exactly two tokens) followed by
`getItemCore`. -/
def getItem (env : JsEnv) (st : SwigState) (type : JsArg) (key : Option String) :
    Except Unit Item × SwigState :=
  if !(jsTruthyArg type) then (.ok emptyItem, st)
  else if truthyS key then
    getItemCore env st (jsKeyOf type) (key.getD "")
  else
    match type with
    | .undef => (.ok emptyItem, st)
    | .str s =>
      match jsSplit2 s with
      | [t, k] => getItemCore env st t k
      | _ => (.ok emptyItem, st)
    | .arr l =>
      match l with
      | [] => (.ok emptyItem, st)
      | s :: _ =>
        match jsSplit2 s with
        | [t, k] => getItemCore env st t k
        | _ => (.ok emptyItem, st)

/-- loop of `getItems`, lines 154-159: for each relation, resolve it with
`getItem`; when the result is non-empty, call `getItem` a second time and
push that result (the source really calls `getItem` twice). -/
def getItemsGo (env : JsEnv) : List JsArg → SwigState → List Item →
    Except Unit (List Item) × SwigState
  | [], st, acc => (.ok acc, st)
  | itm :: rest, st, acc =>
    match getItem env st itm none with
    | (.error e, st') => (.error e, st')
    | (.ok obj, st') =>
      if obj.isEmpty then getItemsGo env rest st' acc
      else
        match getItem env st' itm none with
        | (.error e, st'') => (.error e, st'')
        | (.ok obj2, st'') => getItemsGo env rest st'' (acc ++ [obj2])

/-- `getItems(arr)`, lines 149-162: `[]` for a falsy argument, otherwise the
loop above starting from an empty accumulator. -/
def getItems (env : JsEnv) (st : SwigState) (arr : Option (List JsArg)) :
    Except Unit (List Item) × SwigState :=
  match arr with
  | none => (.ok [], st)
  | some l => getItemsGo env l st []

/-- true iff the string starts with an underscore (`key.indexOf('_') === 0`). -/
def underscoreFirst (s : String) : Bool :=
  match s.data with
  | [] => false
  | c :: _ => c = '_'

/-- the in-place annotation that `_.map` performs in `getCombined` line 192:
lodash `_.omit` builds a new collection object but shares the item values
with the store, so setting `_id`/`_type` mutates the stored items — every
entry whose key does not start with an underscore gets annotated. -/
def annotateColl (name : String) : Collection → Collection
  | [] => []
  | (k, v) :: rest =>
    if underscoreFirst k then (k, v) :: annotateColl name rest
    else (k, { v with idF := some k, tyF := some name }) :: annotateColl name rest

/-- the array of visible items `getCombined` appends for a non-`oneOff` type:
omit underscore-prefixed keys, annotate with `_id`/`_type`, filter by the
publish-date test. -/
def combinedItems (env : JsEnv) (name : String) (coll : Collection) : List Item :=
  ((annotateColl name coll).filter (fun p => !(underscoreFirst p.1))).map Prod.snd
    |>.filter (pubOk env)

/-- the test `self.typeInfo[name] && self.typeInfo[name].oneOff` of line 184. -/
def isOneOff (st : SwigState) (name : String) : Bool :=
  match List.lookup name st.typeInfo with
  | some ti => ti.oneOff
  | none => false

/-- loop of `getCombined`, lines 181-209, threading both the accumulator and
the store (the annotation step mutates the items held by the store).  A `oneOff` type
replaces the accumulator with its store object verbatim (line 185); a later
non-`oneOff` type then calls `.concat` on that plain object, which throws a
`TypeError` — the mutations of that iteration have already happened. -/
def combineGo (env : JsEnv) : List String → SwigState → Combined →
    Except Unit Combined × SwigState
  | [], st, acc => (.ok acc, st)
  | name :: rest, st, acc =>
    if isOneOff st name then
      combineGo env rest st (.obj ((List.lookup name st.data).getD []))
    else
      match acc with
      | .obj _ => (.error (), { st with data := updFirst name (annotateColl name) st.data })
      | .arr l =>
        combineGo env rest { st with data := updFirst name (annotateColl name) st.data }
          (.arr (l ++ combinedItems env name ((List.lookup name st.data).getD [])))

/-- `getCombined(...names)`, lines 170-215: look the comma-joined key up in
the per-pass cache (a hit returns the cached value unchanged); on a miss run
the loop and, on success, store the result under the key before returning. -/
def getCombined (env : JsEnv) (st : SwigState) (names : List String) :
    Except Unit Combined × SwigState :=
  match List.lookup (jsJoin names) st.cachedData with
  | some c => (.ok c, st)
  | none =>
    match combineGo env names st (.arr []) with
    | (.ok d, st') => (.ok d, { st' with cachedData := (jsJoin names, d) :: st'.cachedData })
    | (.error e, st') => (.error e, st')

/-- Modelled from the spec: `utils.slice` lives in `src/libs/utils.js`, which
is not among the sources; per §4.4 it returns the bounded slice of `data` of
length `count` starting at `offset` — empty when the offset is past the end,
the available remainder when the slice runs past the end.  Offsets are
non-negative in every call (`currentPage ≥ 1`). -/
def slice (data : List α) (count : Nat) (offset : Int) : List α :=
  (data.drop offset.toNat).take count

/-- `Math.ceil(a / b)` for natural `a` and positive natural `b` (every call
in the source passes a positive `perPage`). -/
def jsCeilDiv (a b : Nat) : Nat := (a + b - 1) / b

/-- `pageName || self.pageUrl`: a falsy (`undefined` or empty) page name
keeps the old value. -/
def jsOrS : Option String → String → String
  | none, b => b
  | some s, b => if s = "" then b else s

/-- `paginate(data, perPage, pageName)`, lines 217-234: the conflict guard
throws (before any mutation) when `curPage === 1 && self.paginate`; otherwise
slice the data, set the `paginate` flag, capture the base url on first use,
update the page-url segment and recompute `maxPage`. -/
def paginate (st : SwigState) (data : List α) (perPage : Nat) (pageName : Option String) :
    Except Unit (List α) × SwigState :=
  if st.curPage = 1 ∧ st.paginate = true then (.error (), st)
  else
    let items := slice data perPage ((perPage : Int) * (st.curPage - 1))
    let st1 := { st with paginate := true }
    let st2 :=
      if st1.paginationBaseUrl = none then
        { st1 with paginationBaseUrl := some st1.CURRENT_URL }
      else st1
    let st3 := { st2 with pageUrl := jsOrS pageName st2.pageUrl }
    let st4 := { st3 with maxPage := (jsCeilDiv data.length perPage : Int) }
    (.ok items, st4)

/-- `shouldPaginate()`, line 274: `curPage <= maxPage`. -/
def shouldPaginate (st : SwigState) : Bool := decide (st.curPage ≤ st.maxPage)

/-- `init()`, lines 279-285: reset the pagination state. -/
def init (st : SwigState) : SwigState :=
  { st with paginate := false, curPage := 1, pageUrl := "page-", maxPage := -1,
            paginationBaseUrl := none }

/-- `increasePage()`, line 287. -/
def increasePage (st : SwigState) : SwigState := { st with curPage := st.curPage + 1 }

/-- `setData(data)`, lines 52-55: clear the cache, replace the store. -/
def setData (st : SwigState) (d : Store) : SwigState :=
  { st with cachedData := [], data := d }

/-- `setTypeInfo(typeInfo)`, lines 61-63. -/
def setTypeInfo (st : SwigState) (ti : List (String × TypeInfo)) : SwigState :=
  { st with typeInfo := ti }

/-- `setSettings(settings)`, lines 69-71. -/
def setSettings (st : SwigState) (s : Settings) : SwigState :=
  { st with settings := s }

deriving instance DecidableEq for Except

/-- the visibility rule as the specification words it (§4.1): visible iff
`publish_date` is present (JS-truthy) and its parsed timestamp does not
exceed `now + 60000` ms (an unparseable date has no timestamp to exceed).
This is the claim-side reading, to be compared with `pubOk` from the code. -/
def visibleSpec (env : JsEnv) (it : Item) : Prop :=
  truthyS it.publish_date = true ∧
  ∀ s ts, it.publish_date = some s → env.dparse s = some ts → ts ≤ env.now + 60000

/-- the store covers the type-metadata table: every slug with metadata also
has a store entry.  This is exactly what rules out the `TypeError` on line
121 (`self.data[type][key]` with `self.data[type]` undefined). -/
def storeCovered (st : SwigState) : Prop :=
  ∀ p ∈ st.typeInfo, (List.lookup p.1 st.data).isSome

instance (st : SwigState) : Decidable (storeCovered st) := by
  unfold storeCovered
  infer_instance

/-! ## Concrete example data used by witnesses and counterexamples -/

/-- a concrete environment: the clock reads 0 and only three date strings
parse (to 0, `now + 59999` and `now + 60001`); everything else is `NaN`. -/
def envW : JsEnv :=
  { now := 0,
    dparse := fun s =>
      if s = "d0" then some 0
      else if s = "p59999" then some 59999
      else if s = "p60001" then some 60001
      else none }

/-- an item published at time 0 (visible under `envW`). -/
def itVis : Item := { publish_date := some "d0" }

/-- an item published just inside the grace window under `envW`. -/
def itEarly : Item := { publish_date := some "p59999" }

/-- an item published just past the grace window under `envW`. -/
def itLate : Item := { publish_date := some "p60001" }

/-- an item with no publish date at all. -/
def itNoDate : Item := { name := some "C" }

/-- a store with one ordinary type `a` holding one visible item. -/
def stW : SwigState :=
  { typeInfo := [("a", { oneOff := false })],
    data := [("a", [("k1", itVis)])] }

/-- the annotated form of `itVis` that `getCombined` produces for `stW`. -/
def itVisA : Item := { itVis with idF := some "k1", tyF := some "a" }

/-- a state whose type-metadata table has a slug that the store lacks. -/
def stUncov : SwigState :=
  { typeInfo := [("t", { oneOff := false })], data := [] }

/-- a store with a `oneOff` type `o` followed by an ordinary type `c`. -/
def stOne : SwigState :=
  { typeInfo := [("o", { oneOff := true }), ("c", { oneOff := false })],
    data := [("o", [("f", itNoDate)]), ("c", [("k", itVis)])] }

/-- a store whose type `t` has both an item keyed `"a b"` and one keyed
`"a"`, to separate the two readings of a spaced relation string. -/
def stSpace : SwigState :=
  { typeInfo := [("t", { oneOff := false })],
    data := [("t", [("a b", { publish_date := some "d0", name := some "spaced" }),
                    ("a", { publish_date := some "d0", name := some "plain" })])] }

/-- a store with a `oneOff` type holding an unannotated item. -/
def stMut : SwigState :=
  { typeInfo := [("t", { oneOff := true })], data := [("t", [("k", itNoDate)])] }

/-- a store with boundary-dated items for the grace-window checks. -/
def stBound : SwigState :=
  { typeInfo := [("companies", { oneOff := false }), ("about", { oneOff := true })],
    data := [("companies", [("e", itEarly), ("l", itLate)]),
             ("about", [("hero", itNoDate)])] }

/-! ## Pagination (claims C3, C4) -/

/-- when the conflict guard fires, `paginate` throws and leaves the state
untouched (the throw happens before any mutation). -/
theorem paginate_of_guard (st : SwigState) (d : List α) (pp : Nat) (pn : Option String)
    (h : st.curPage = 1 ∧ st.paginate = true) :
    paginate st d pp pn = (.error (), st) := by
  unfold paginate
  rw [if_pos h]

/-- when the conflict guard does not fire, `paginate` returns the bounded
slice and performs exactly the four field updates of lines 223-231. -/
theorem paginate_of_no_guard (st : SwigState) (d : List α) (pp : Nat) (pn : Option String)
    (h : ¬(st.curPage = 1 ∧ st.paginate = true)) :
    paginate st d pp pn =
      (.ok (slice d pp ((pp : Int) * (st.curPage - 1))),
       { st with paginate := true,
                 paginationBaseUrl :=
                   if st.paginationBaseUrl = none then some st.CURRENT_URL
                   else st.paginationBaseUrl,
                 pageUrl := jsOrS pn st.pageUrl,
                 maxPage := (jsCeilDiv d.length pp : Int) }) := by
  unfold paginate
  rw [if_neg h]
  by_cases hb : st.paginationBaseUrl = none <;> simp [hb]

/-- C3: `paginate` raises the pagination-conflict error exactly when
`curPage = 1` and the pagination flag is already set; on a raise the state is
returned unchanged; a call with `curPage > 1` never raises; and every
successful call sets the flag (which is what makes the state "active"). -/
theorem paginate_conflict_guard (st : SwigState) (data : List α) (perPage : Nat)
    (pageName : Option String) :
    ((paginate st data perPage pageName).1 = .error () ↔
        st.curPage = 1 ∧ st.paginate = true) ∧
    ((paginate st data perPage pageName).1 = .error () →
        (paginate st data perPage pageName).2 = st) ∧
    (1 < st.curPage → (paginate st data perPage pageName).1 ≠ .error ()) ∧
    ((paginate st data perPage pageName).1 ≠ .error () →
        (paginate st data perPage pageName).2.paginate = true) := by
  by_cases h : st.curPage = 1 ∧ st.paginate = true
  · rw [paginate_of_guard st data perPage pageName h]
    refine ⟨by simp [h], fun _ => rfl, ?_, fun hne => absurd rfl hne⟩
    intro hlt
    have := h.1
    omega
  · rw [paginate_of_no_guard st data perPage pageName h]
    exact ⟨by simp [h], by simp, fun _ hc => by simp at hc, fun _ => rfl⟩

/-- C3 witness: at a state with `curPage = 1` and the flag already set, the
guard fires and the state is unchanged. -/
theorem paginate_conflict_guard_witness :
    (paginate { paginate := true : SwigState } [0, 1, 2] 2 none).1 = .error () ∧
    (paginate { paginate := true : SwigState } [0, 1, 2] 2 none).2 =
      { paginate := true : SwigState } := by
  have h := paginate_conflict_guard ({ paginate := true : SwigState }) [0, 1, 2] 2 none
  have he : (paginate { paginate := true : SwigState } [0, 1, 2] 2 none).1 = .error () :=
    h.1.mpr ⟨rfl, rfl⟩
  exact ⟨he, h.2.1 he⟩

@[simp] lemma increasePage_curPage (st : SwigState) :
    (increasePage st).curPage = st.curPage + 1 := rfl

@[simp] lemma increasePage_maxPage (st : SwigState) :
    (increasePage st).maxPage = st.maxPage := rfl

@[simp] lemma increasePage_paginate (st : SwigState) :
    (increasePage st).paginate = st.paginate := rfl

/-- C4: slicing semantics of `paginate`.  The 12-element scenario: after
`init` the first call with `perPage = 5` returns the first 5 items and sets
`maxPage = 3`; after two `increasePage` calls (`curPage = 3`) the same call
returns the remaining 2 items; `shouldPaginate` is true on pages 1, 2, 3 and
false on page 4.  In general the slice starts at `perPage * (curPage - 1)`,
is truncated at the end of the data, and is empty past the end. -/
theorem paginate_slicing (st0 : SwigState) (d : List α) (h12 : d.length = 12)
    (st : SwigState) (data : List α) (perPage : Nat) (pageName : Option String)
    (hguard : ¬(st.curPage = 1 ∧ st.paginate = true)) :
    -- concrete 12-element scenario, starting from init
    (paginate (init st0) d 5 none).1 = .ok (d.take 5) ∧
    (paginate (init st0) d 5 none).2.maxPage = 3 ∧
    (paginate (init st0) d 5 none).2.curPage = 1 ∧
    shouldPaginate (paginate (init st0) d 5 none).2 = true ∧
    shouldPaginate (increasePage (paginate (init st0) d 5 none).2) = true ∧
    shouldPaginate (increasePage (increasePage (paginate (init st0) d 5 none).2)) = true ∧
    (increasePage (increasePage (paginate (init st0) d 5 none).2)).curPage = 3 ∧
    (paginate (increasePage (increasePage (paginate (init st0) d 5 none).2)) d 5 none).1 =
      .ok (d.drop 10) ∧
    (d.drop 10).length = 2 ∧
    shouldPaginate
      (increasePage (increasePage (increasePage (paginate (init st0) d 5 none).2))) = false ∧
    -- general bounded-slice semantics
    (paginate st data perPage pageName).1 =
      .ok (slice data perPage ((perPage : Int) * (st.curPage - 1))) ∧
    (slice data perPage ((perPage : Int) * (st.curPage - 1))).length =
      min perPage (data.length - ((perPage : Int) * (st.curPage - 1)).toNat) ∧
    (data.length ≤ ((perPage : Int) * (st.curPage - 1)).toNat →
      slice data perPage ((perPage : Int) * (st.curPage - 1)) = []) := by
  have hg1 : ¬((init st0).curPage = 1 ∧ (init st0).paginate = true) := by
    simp [init]
  have h1 := paginate_of_no_guard (init st0) d 5 none hg1
  have hcur1 : (paginate (init st0) d 5 none).2.curPage = 1 := by
    rw [h1]
    simp [init]
  have hmax1 : (paginate (init st0) d 5 none).2.maxPage = 3 := by
    rw [h1]
    show (jsCeilDiv d.length 5 : Int) = 3
    rw [h12]
    decide
  have hfst1 : (paginate (init st0) d 5 none).1 = .ok (d.take 5) := by
    rw [h1]
    simp [init, slice]
  have hcur3 : (increasePage (increasePage (paginate (init st0) d 5 none).2)).curPage = 3 := by
    simp [hcur1]
  have hg3 : ¬((increasePage (increasePage (paginate (init st0) d 5 none).2)).curPage = 1 ∧
      (increasePage (increasePage (paginate (init st0) d 5 none).2)).paginate = true) := by
    rw [hcur3]
    intro hc
    exact absurd hc.1 (by norm_num)
  have h2 := paginate_of_no_guard
    (increasePage (increasePage (paginate (init st0) d 5 none).2)) d 5 none hg3
  have hfst2 : (paginate (increasePage (increasePage (paginate (init st0) d 5 none).2))
      d 5 none).1 = .ok (d.drop 10) := by
    rw [h2, hcur3]
    show Except.ok ((d.drop ((5 * (3 - 1) : Int)).toNat).take 5) = _
    norm_num
    exact List.take_of_length_le (by simp [h12])
  refine ⟨hfst1, hmax1, hcur1, ?_, ?_, ?_, hcur3, hfst2, by simp [h12], ?_, ?_, ?_, ?_⟩
  · simp [shouldPaginate, hcur1, hmax1]
  · simp [shouldPaginate, hcur1, hmax1]
  · simp [shouldPaginate, hcur1, hmax1]
  · simp [shouldPaginate, hcur1, hmax1]
  · rw [paginate_of_no_guard st data perPage pageName hguard]
  · show ((data.drop _).take perPage).length = _
    simp [List.length_take, List.length_drop]
  · intro hpast
    show (data.drop _).take perPage = []
    rw [List.drop_eq_nil_of_le hpast]
    simp

/-- C4 witness: the hypotheses hold at a concrete 12-element list and a
fresh state, and the first page is the first five elements. -/
theorem paginate_slicing_witness :
    (List.range 12).length = 12 ∧
    ¬(({} : SwigState).curPage = 1 ∧ ({} : SwigState).paginate = true) ∧
    (paginate (init {}) (List.range 12) 5 none).1 = .ok ((List.range 12).take 5) := by
  refine ⟨by decide, by decide, ?_⟩
  exact (paginate_slicing ({} : SwigState) (List.range 12) (by decide)
    ({} : SwigState) (List.range 12) 5 none (by decide)).1

/-! ## Setter frame conditions (claim C8) -/

/-- C8: `setData` replaces the store and clears the whole query cache, so a
following `getCombined` goes through the recomputation path (never a cache
hit); `setTypeInfo` and `setSettings` replace exactly their own table and
leave the cache and every other field unchanged. -/
theorem setters_frame (st : SwigState) (d : Store) (ti : List (String × TypeInfo))
    (s : Settings) (env : JsEnv) (names : List String) :
    (setData st d).data = d ∧
    (setData st d).cachedData = [] ∧
    (setData st d).typeInfo = st.typeInfo ∧
    (setData st d).settings = st.settings ∧
    (setData st d).paginate = st.paginate ∧
    (setData st d).curPage = st.curPage ∧
    (setData st d).maxPage = st.maxPage ∧
    (setData st d).pageUrl = st.pageUrl ∧
    (setData st d).paginationBaseUrl = st.paginationBaseUrl ∧
    (setData st d).CURRENT_URL = st.CURRENT_URL ∧
    (getCombined env (setData st d) names).1 =
      (combineGo env names (setData st d) (.arr [])).1 ∧
    setTypeInfo st ti = { st with typeInfo := ti } ∧
    (setTypeInfo st ti).cachedData = st.cachedData ∧
    (setTypeInfo st ti).data = st.data ∧
    setSettings st s = { st with settings := s } ∧
    (setSettings st s).cachedData = st.cachedData ∧
    (setSettings st s).data = st.data := by
  refine ⟨rfl, rfl, rfl, rfl, rfl, rfl, rfl, rfl, rfl, rfl, ?_, rfl, rfl, rfl, rfl, rfl, rfl⟩
  unfold getCombined
  have hnone : List.lookup (jsJoin names) (setData st d).cachedData = none := rfl
  rw [hnone]
  rcases hgo : combineGo env names (setData st d) (.arr []) with ⟨r, st'⟩
  cases r <;> simp

/-! ## Query cache (claims C5, C10) -/

lemma lookup_cons_self (k : String) (v : α) (l : List (String × α)) :
    List.lookup k ((k, v) :: l) = some v := by
  simp [List.lookup]

lemma lookup_cons_ne (k k' : String) (v : α) (l : List (String × α))
    (h : (k == k') = false) :
    List.lookup k ((k', v) :: l) = List.lookup k l := by
  simp [List.lookup, h]

/-- the combine loop never touches the query cache (only `getCombined`
itself writes the final entry). -/
lemma combineGo_cachedData (env : JsEnv) : ∀ (names : List String) (st : SwigState)
    (acc : Combined), (combineGo env names st acc).2.cachedData = st.cachedData
  | [], _, _ => rfl
  | name :: rest, st, acc => by
    unfold combineGo
    split
    · exact combineGo_cachedData env rest st _
    · cases acc with
      | obj o => rfl
      | arr l => exact combineGo_cachedData env rest _ _

/-- a cache hit returns the cached value and leaves the state unchanged. -/
lemma getCombined_cache_hit {env : JsEnv} {st : SwigState} {names : List String}
    {c : Combined} (h : List.lookup (jsJoin names) st.cachedData = some c) :
    getCombined env st names = (.ok c, st) := by
  unfold getCombined
  rw [h]

/-- after a successful `getCombined`, the returned value sits in the cache of
the returned state under the comma-joined key. -/
lemma getCombined_ok_cached {env : JsEnv} {st st1 : SwigState} {names : List String}
    {c : Combined} (h : getCombined env st names = (.ok c, st1)) :
    List.lookup (jsJoin names) st1.cachedData = some c := by
  unfold getCombined at h
  cases hc : List.lookup (jsJoin names) st.cachedData with
  | some c' =>
    rw [hc] at h
    injection h with h1 h2
    injection h1 with h1
    subst h1
    subst h2
    exact hc
  | none =>
    rw [hc] at h
    rcases hgo : combineGo env names st (.arr []) with ⟨r, st'⟩
    rw [hgo] at h
    cases r with
    | ok dd =>
      injection h with h1 h2
      injection h1 with h1
      subst h1
      subst h2
      exact lookup_cons_self _ _ _
    | error e =>
      injection h with h1 h2
      exact absurd h1 (by simp)

/-- a cache miss runs the combine loop and, on success, prepends the new
entry to the cache. -/
lemma getCombined_cache_miss (env : JsEnv) (st : SwigState) (names : List String)
    (h : List.lookup (jsJoin names) st.cachedData = none) :
    getCombined env st names =
      match combineGo env names st (.arr []) with
      | (.ok d, st') => (.ok d, { st' with cachedData := (jsJoin names, d) :: st'.cachedData })
      | (.error e, st') => (.error e, st') := by
  unfold getCombined
  rw [h]

/-- C5: within one pass (no intervening `setData`) a repeated `getCombined`
with the same argument list returns the identical cached value and leaves the
state unchanged; and the keys of `("a","b")` and `("b","a")` are distinct, so
the second call computes its own result rather than reading the entry of the
first, and afterwards both entries coexist in the cache. -/
theorem getCombined_cache_order (env : JsEnv) :
    (∀ (st : SwigState) (names : List String) (c : Combined) (st1 : SwigState),
        getCombined env st names = (.ok c, st1) →
        getCombined env st1 names = (.ok c, st1)) ∧
    ("a,b" : String) ≠ "b,a" ∧
    (∀ (st stA stB : SwigState) (c1 c2 : Combined),
        List.lookup "a,b" st.cachedData = none →
        List.lookup "b,a" st.cachedData = none →
        getCombined env st ["a", "b"] = (.ok c1, stA) →
        getCombined env stA ["b", "a"] = (.ok c2, stB) →
        (∃ stm2, combineGo env ["b", "a"] stA (.arr []) = (.ok c2, stm2)) ∧
        List.lookup "a,b" stB.cachedData = some c1 ∧
        List.lookup "b,a" stB.cachedData = some c2) := by
  refine ⟨?_, by decide, ?_⟩
  · intro st names c st1 h
    exact getCombined_cache_hit (getCombined_ok_cached h)
  · intro st stA stB c1 c2 hab hba h1 h2
    have hj1 : jsJoin ["a", "b"] = "a,b" := rfl
    have hj2 : jsJoin ["b", "a"] = "b,a" := rfl
    -- invert the first call: it must have gone through the combine loop
    rw [getCombined_cache_miss env st ["a", "b"] (by rw [hj1]; exact hab)] at h1
    rcases hgo1 : combineGo env ["a", "b"] st (.arr []) with ⟨r1, stm1⟩
    rw [hgo1] at h1
    have hcm1 : stm1.cachedData = st.cachedData := by
      have := combineGo_cachedData env ["a", "b"] st (.arr [])
      rw [hgo1] at this
      exact this
    cases r1 with
    | error e => exact absurd (congrArg Prod.fst h1) (by simp)
    | ok d1 =>
      have hd1 : d1 = c1 := by
        have := congrArg Prod.fst h1
        simpa using this
      have hstA : stA = { stm1 with cachedData := ("a,b", d1) :: stm1.cachedData } := by
        have := congrArg Prod.snd h1
        simp at this
        rw [hj1] at this
        exact this.symm
      have hcA : stA.cachedData = ("a,b", c1) :: st.cachedData := by
        rw [hstA, hd1, hcm1]
      -- the second key misses: it differs from the first and from everything older
      have hmissA : List.lookup (jsJoin ["b", "a"]) stA.cachedData = none := by
        rw [hj2, hcA, lookup_cons_ne _ _ _ _ (by decide)]
        exact hba
      rw [getCombined_cache_miss env stA ["b", "a"] hmissA] at h2
      rcases hgo2 : combineGo env ["b", "a"] stA (.arr []) with ⟨r2, stm2⟩
      rw [hgo2] at h2
      have hcm2 : stm2.cachedData = stA.cachedData := by
        have := combineGo_cachedData env ["b", "a"] stA (.arr [])
        rw [hgo2] at this
        exact this
      cases r2 with
      | error e => exact absurd (congrArg Prod.fst h2) (by simp)
      | ok d2 =>
        have hd2 : d2 = c2 := by
          have := congrArg Prod.fst h2
          simpa using this
        have hstB : stB = { stm2 with cachedData := ("b,a", d2) :: stm2.cachedData } := by
          have := congrArg Prod.snd h2
          simp at this
          rw [hj2] at this
          exact this.symm
        refine ⟨⟨stm2, by rw [hd2]⟩, ?_, ?_⟩
        · rw [hstB]
          show List.lookup "a,b" (("b,a", d2) :: stm2.cachedData) = some c1
          rw [lookup_cons_ne _ _ _ _ (by decide), hcm2, hcA]
          exact lookup_cons_self _ _ _
        · rw [hstB, hd2]
          exact lookup_cons_self _ _ _

/-- C5 witness: on the concrete store `stW`, two successive calls with the
same argument list return the same array, the second one from the cache with
no state change. -/
theorem getCombined_cache_order_witness :
    getCombined envW stW ["a", "b"] = (.ok (.arr [itVisA]), (getCombined envW stW ["a", "b"]).2) ∧
    getCombined envW (getCombined envW stW ["a", "b"]).2 ["a", "b"] =
      (.ok (.arr [itVisA]), (getCombined envW stW ["a", "b"]).2) := by
  refine ⟨by decide, ?_⟩
  exact (getCombined_cache_order envW).1 stW ["a", "b"] (.arr [itVisA])
    (getCombined envW stW ["a", "b"]).2 (by decide)

/-- C10: the comma-joined cache key of the single slug `"a,b"` and of the
two slugs `"a", "b"` coincide, so whichever call runs second gets the first
call's cached array; concretely on `stW` (which has no type named `"a,b"`)
the second call returns the cached one-element array even though its own
computation would have produced the empty array. -/
theorem getCombined_key_collision :
    jsJoin ["a,b"] = jsJoin ["a", "b"] ∧
    (∀ (env : JsEnv) (st : SwigState) (c : Combined) (st1 : SwigState),
        getCombined env st ["a", "b"] = (.ok c, st1) →
        getCombined env st1 ["a,b"] = (.ok c, st1)) ∧
    (∀ (env : JsEnv) (st : SwigState) (c : Combined) (st1 : SwigState),
        getCombined env st ["a,b"] = (.ok c, st1) →
        getCombined env st1 ["a", "b"] = (.ok c, st1)) ∧
    (getCombined envW stW ["a", "b"]).1 = .ok (.arr [itVisA]) ∧
    (getCombined envW (getCombined envW stW ["a", "b"]).2 ["a,b"]).1 = .ok (.arr [itVisA]) ∧
    (combineGo envW ["a,b"] (getCombined envW stW ["a", "b"]).2 (.arr [])).1 ≠
      .ok (.arr [itVisA]) := by
  have hj : jsJoin ["a,b"] = jsJoin ["a", "b"] := rfl
  refine ⟨hj, ?_, ?_, by decide, by decide, by decide⟩
  · intro env st c st1 h
    have := getCombined_ok_cached h
    exact getCombined_cache_hit (by rw [hj]; exact this)
  · intro env st c st1 h
    have := getCombined_ok_cached h
    exact getCombined_cache_hit (by rw [← hj]; exact this)

/-- C10 witness: the collision realized on the concrete store `stW`. -/
theorem getCombined_key_collision_witness :
    getCombined envW (getCombined envW stW ["a", "b"]).2 ["a,b"] =
      (.ok (.arr [itVisA]), (getCombined envW stW ["a", "b"]).2) := by
  exact (getCombined_key_collision).2.1 envW stW (.arr [itVisA])
    (getCombined envW stW ["a", "b"]).2 (by decide)

/-! ## Visibility (claim C1) -/

lemma mem_of_lookup {α : Type} {l : List (String × α)} {a : String} {b : α}
    (h : List.lookup a l = some b) : (a, b) ∈ l := by
  induction l with
  | nil => simp [List.lookup] at h
  | cons p rest ih =>
    rcases p with ⟨k, v⟩
    rw [List.lookup] at h
    cases hb : a == k with
    | true =>
      rw [hb] at h
      injection h with h1
      have hak : a = k := by simpa using hb
      subst hak
      subst h1
      exact List.mem_cons_self _ _
    | false =>
      rw [hb] at h
      exact List.mem_cons_of_mem _ (ih h)

/-- the spec-side visibility predicate coincides with the publish-date test
in the code. -/
lemma visibleSpec_iff (env : JsEnv) (it : Item) :
    visibleSpec env it ↔ pubOk env it = true := by
  unfold visibleSpec pubOk truthyS
  cases hpd : it.publish_date with
  | none => simp
  | some s =>
    dsimp only
    by_cases hs : s = ""
    · subst hs
      simp
    · rw [if_neg hs]
      cases hp : env.dparse s with
      | none =>
        dsimp only
        constructor
        · intro _
          rfl
        · intro _
          refine ⟨by simp [hs], ?_⟩
          intro s' ts hss hts
          injection hss with hss
          subst hss
          rw [hp] at hts
          exact absurd hts (by simp)
      | some ts0 =>
        dsimp only
        constructor
        · rintro ⟨h1, h2⟩
          have hle := h2 s ts0 rfl hp
          rw [if_neg (by omega)]
        · intro h
          refine ⟨by simp [hs], ?_⟩
          intro s' ts hss hts
          injection hss with hss
          subst hss
          rw [hp] at hts
          injection hts with hts
          subst hts
          by_contra hgt
          rw [if_pos (by omega)] at h
          exact absurd h (by simp)

lemma getItem_two_args (env : JsEnv) (st : SwigState) (t k : String)
    (ht : t ≠ "") (hk : k ≠ "") :
    getItem env st (.str t) (some k) = getItemCore env st t k := by
  unfold getItem
  have h1 : jsTruthyArg (.str t) = true := by
    simp [jsTruthyArg, ht]
  have h2 : truthyS (some k) = true := by
    simp [truthyS, hk]
  rw [h1, h2]
  simp [jsKeyOf]

lemma getItemCore_found (env : JsEnv) (st : SwigState) (t k : String) {ti : TypeInfo}
    {coll : Collection} {item : Item}
    (hti : List.lookup t st.typeInfo = some ti)
    (hcoll : List.lookup t st.data = some coll)
    (hitem : List.lookup k coll = some item) :
    getItemCore env st t k =
      if ti.oneOff || pubOk env item then
        (.ok { item with tyF := some t },
         { st with data := updFirst t (updFirst k (fun _ => { item with tyF := some t }))
                     st.data })
      else (.ok emptyItem, st) := by
  unfold getItemCore
  rw [hti]
  dsimp only
  rw [hcoll]
  dsimp only
  rw [hitem]

/-- annotating with `_id`/`_type` does not change the publish date, so the
filter in `getCombined` sees the original value. -/
lemma pubOk_annot (env : JsEnv) (v : Item) (k t : String) :
    pubOk env { v with idF := some k, tyF := some t } = pubOk env v := rfl

lemma annotateColl_cons (t k' : String) (v : Item) (rest : Collection) :
    annotateColl t ((k', v) :: rest) =
      if underscoreFirst k' then (k', v) :: annotateColl t rest
      else (k', { v with idF := some k', tyF := some t }) :: annotateColl t rest := rfl

lemma combinedItems_cons (env : JsEnv) (t k' : String) (v : Item) (rest : Collection) :
    combinedItems env t ((k', v) :: rest) =
      (if underscoreFirst k' = false ∧ pubOk env v = true
       then [{ v with idF := some k', tyF := some t }] else []) ++
        combinedItems env t rest := by
  unfold combinedItems
  rw [annotateColl_cons]
  by_cases hu : underscoreFirst k'
  · rw [if_pos hu, List.filter_cons]
    simp only [hu, Bool.not_true, if_false]
    simp [hu]
  · rw [if_neg hu, List.filter_cons]
    simp only [Bool.not_eq_true] at hu
    simp only [hu, Bool.not_false, if_true, List.map_cons, List.filter_cons, pubOk_annot]
    by_cases hp : pubOk env v
    · simp [hp]
    · simp only [Bool.not_eq_true] at hp
      simp [hp]

/-- everything in the combined array is an annotated item whose original
passed the publish-date test. -/
lemma combinedItems_mem_pubOk (env : JsEnv) (t : String) :
    ∀ (coll : Collection) (x : Item), x ∈ combinedItems env t coll →
      ∃ k' v', x = { v' with idF := some k', tyF := some t } ∧ pubOk env v' = true
  | [], x, hx => by simp [combinedItems, annotateColl] at hx
  | (k', v) :: rest, x, hx => by
    rw [combinedItems_cons] at hx
    rcases List.mem_append.mp hx with hx1 | hx2
    · by_cases hc : underscoreFirst k' = false ∧ pubOk env v = true
      · rw [if_pos hc] at hx1
        rcases List.mem_singleton.mp hx1 with rfl
        exact ⟨k', v, rfl, hc.2⟩
      · rw [if_neg hc] at hx1
        exact absurd hx1 (List.not_mem_nil x)
    · exact combinedItems_mem_pubOk env t rest x hx2

/-- a stored, visible, non-underscore-keyed item shows up (annotated) in the
combined array. -/
lemma mem_combinedItems_of (env : JsEnv) (t : String) :
    ∀ (coll : Collection) (k : String) (item : Item),
      List.lookup k coll = some item → underscoreFirst k = false →
      pubOk env item = true →
      { item with idF := some k, tyF := some t } ∈ combinedItems env t coll
  | [], k, item, hitem, _, _ => by simp [List.lookup] at hitem
  | (k', v) :: rest, k, item, hitem, hund, hp => by
    rw [combinedItems_cons]
    apply List.mem_append.mpr
    rw [List.lookup] at hitem
    cases hb : k == k' with
    | true =>
      rw [hb] at hitem
      injection hitem with hv
      have hkk : k = k' := by simpa using hb
      subst hkk
      subst hv
      left
      rw [if_pos ⟨hund, hp⟩]
      exact List.mem_singleton.mpr rfl
    | false =>
      rw [hb] at hitem
      right
      exact mem_combinedItems_of env t rest k item hitem hund hp

/-- the single-type combine loop on a cache miss. -/
lemma getCombined_single (env : JsEnv) (st : SwigState) (t : String)
    (hcache : List.lookup t st.cachedData = none) :
    (isOneOff st t = true →
        (getCombined env st [t]).1 = .ok (.obj ((List.lookup t st.data).getD []))) ∧
    (isOneOff st t = false →
        (getCombined env st [t]).1 =
          .ok (.arr (combinedItems env t ((List.lookup t st.data).getD [])))) := by
  have hj : jsJoin [t] = t := rfl
  have hm := getCombined_cache_miss env st [t] (by rw [hj]; exact hcache)
  constructor
  · intro hone
    rw [hm]
    show (match combineGo env [t] st (.arr []) with
      | (.ok d, st') => ((.ok d : Except Unit Combined),
          { st' with cachedData := (jsJoin [t], d) :: st'.cachedData })
      | (.error e, st') => (.error e, st')).1 = _
    unfold combineGo
    rw [hone]
    rfl
  · intro hone
    rw [hm]
    show (match combineGo env [t] st (.arr []) with
      | (.ok d, st') => ((.ok d : Except Unit Combined),
          { st' with cachedData := (jsJoin [t], d) :: st'.cachedData })
      | (.error e, st') => (.error e, st')).1 = _
    unfold combineGo
    rw [hone]
    show (match combineGo env []
        { st with data := updFirst t (annotateColl t) st.data }
        (.arr ([] ++ combinedItems env t ((List.lookup t st.data).getD []))) with
      | (.ok d, st') => ((.ok d : Except Unit Combined),
          { st' with cachedData := (jsJoin [t], d) :: st'.cachedData })
      | (.error e, st') => (.error e, st')).1 = _
    unfold combineGo
    simp

/-- C1: visibility.  For a stored item whose type has metadata: when the
type is `oneOff`, `getItem` returns the annotated item and `getCombined`
returns the whole store object, both regardless of `publish_date`; when it
is not, `getItem` returns the annotated item exactly under the spec
visibility condition (`publish_date` present and parsed timestamp at most
`now + 60000`) and the empty item otherwise, `getCombined` includes the
annotated item under exactly the same condition, and the one-minute
boundary behaves as claimed (59999 ms ahead in, 60001 ms ahead out). -/
theorem visibility_rule (env : JsEnv) (st : SwigState) (t k : String) (ti : TypeInfo)
    (coll : Collection) (item : Item)
    (ht : t ≠ "") (hk : k ≠ "")
    (hti : List.lookup t st.typeInfo = some ti)
    (hcoll : List.lookup t st.data = some coll)
    (hitem : List.lookup k coll = some item)
    (hcache : List.lookup t st.cachedData = none)
    (hund : underscoreFirst k = false) :
    (ti.oneOff = true →
        (getItem env st (.str t) (some k)).1 = .ok { item with tyF := some t }) ∧
    (ti.oneOff = true → (getCombined env st [t]).1 = .ok (.obj coll)) ∧
    (ti.oneOff = false →
        (((getItem env st (.str t) (some k)).1 = .ok { item with tyF := some t }) ↔
          visibleSpec env item)) ∧
    (ti.oneOff = false → ¬ visibleSpec env item →
        (getItem env st (.str t) (some k)).1 = .ok emptyItem) ∧
    (ti.oneOff = false →
        (getCombined env st [t]).1 = .ok (.arr (combinedItems env t coll))) ∧
    (ti.oneOff = false →
        ({ item with idF := some k, tyF := some t } ∈ combinedItems env t coll ↔
          visibleSpec env item)) ∧
    (ti.oneOff = false → ∀ s, item.publish_date = some s → s ≠ "" →
        env.dparse s = some (env.now + 59999) →
        (getItem env st (.str t) (some k)).1 = .ok { item with tyF := some t }) ∧
    (ti.oneOff = false → ∀ s, item.publish_date = some s → s ≠ "" →
        env.dparse s = some (env.now + 60001) →
        (getItem env st (.str t) (some k)).1 = .ok emptyItem) := by
  have hone : isOneOff st t = ti.oneOff := by
    unfold isOneOff
    rw [hti]
  have hgi : getItem env st (.str t) (some k) = getItemCore env st t k :=
    getItem_two_args env st t k ht hk
  have hcore := getItemCore_found env st t k hti hcoll hitem
  have hC : ti.oneOff = false →
      (((getItem env st (.str t) (some k)).1 = .ok { item with tyF := some t }) ↔
        visibleSpec env item) := by
    intro hof
    rw [hgi, hcore, hof, Bool.false_or]
    by_cases hp : pubOk env item
    · rw [if_pos hp]
      constructor
      · intro _
        exact (visibleSpec_iff env item).mpr hp
      · intro _
        rfl
    · rw [if_neg hp]
      constructor
      · intro habs
        injection habs with habs
        have := congrArg Item.tyF habs
        simp [emptyItem] at this
      · intro hv
        exact absurd ((visibleSpec_iff env item).mp hv) hp
  refine ⟨?_, ?_, hC, ?_, ?_, ?_, ?_, ?_⟩
  · intro hof
    rw [hgi, hcore, hof, Bool.true_or, if_pos rfl]
  · intro hof
    have h := (getCombined_single env st t hcache).1 (by rw [hone]; exact hof)
    rw [h, hcoll]
    rfl
  · intro hof hnv
    rw [hgi, hcore, hof, Bool.false_or,
      if_neg (fun hp => hnv ((visibleSpec_iff env item).mpr hp))]
  · intro hof
    have h := (getCombined_single env st t hcache).2 (by rw [hone]; exact hof)
    rw [h, hcoll]
    rfl
  · intro _
    constructor
    · intro hx
      rcases combinedItems_mem_pubOk env t coll _ hx with ⟨k', v', hx1, hp⟩
      have hpd : item.publish_date = v'.publish_date := by
        have := congrArg Item.publish_date hx1
        simpa using this
      apply (visibleSpec_iff env item).mpr
      rw [show pubOk env item = pubOk env v' from by unfold pubOk; rw [hpd]]
      exact hp
    · intro hv
      exact mem_combinedItems_of env t coll k item hitem hund
        ((visibleSpec_iff env item).mp hv)
  · intro hof s hpd hs hdp
    apply (hC hof).mpr
    constructor
    · simp [truthyS, hpd, hs]
    · intro s' ts hss hts
      rw [hpd] at hss
      injection hss with hss
      subst hss
      rw [hdp] at hts
      injection hts with hts
      omega
  · intro hof s hpd hs hdp
    rw [hgi, hcore, hof, Bool.false_or]
    have hp : pubOk env item = false := by
      unfold pubOk
      rw [hpd]
      simp only [hs, if_false]
      rw [hdp]
      simp
    rw [if_neg (by rw [hp]; exact Bool.false_ne_true)]

/-- C1 witness: on the concrete boundary store, the item dated 59999 ms
ahead is returned by `getItem`. -/
theorem visibility_rule_witness :
    (getItem envW stBound (.str "companies") (some "e")).1 =
      .ok { itEarly with tyF := some "companies" } := by
  exact (visibility_rule envW stBound "companies" "e" { oneOff := false }
    [("e", itEarly), ("l", itLate)] itEarly (by decide) (by decide) (by decide)
    (by decide) (by decide) (by decide) (by decide)).2.2.2.2.2.2.1 rfl "p59999"
    (by decide) (by decide) (by decide)

/-! ## Error handling of getItem and getItems (claim C2) -/

lemma lookup_updFirst {α : Type} (a k : String) (f : α → α) :
    ∀ l : List (String × α), List.lookup a (updFirst k f l) =
      if a = k then (List.lookup k l).map f else List.lookup a l
  | [] => by
    simp only [updFirst, List.lookup, Option.map_none']
    split <;> rfl
  | (k', v) :: rest => by
    unfold updFirst
    by_cases hk' : k' = k
    · rw [if_pos hk']
      subst hk'
      by_cases ha : a = k'
      · subst ha
        rw [if_pos rfl, lookup_cons_self, lookup_cons_self]
        rfl
      · have hb : (a == k') = false := by simpa using ha
        rw [if_neg ha, lookup_cons_ne _ _ _ _ hb, lookup_cons_ne _ _ _ _ hb]
    · rw [if_neg hk']
      by_cases ha : a = k
      · subst ha
        have hb : (a == k') = false := by
          simpa using fun hh : a = k' => hk' hh.symm
        rw [if_pos rfl, lookup_cons_ne _ _ _ _ hb, lookup_cons_ne _ _ _ _ hb,
          lookup_updFirst a a f rest, if_pos rfl]
      · rw [if_neg ha]
        by_cases hak' : a = k'
        · subst hak'
          rw [lookup_cons_self, lookup_cons_self]
        · have hb : (a == k') = false := by simpa using hak'
          rw [lookup_cons_ne _ _ _ _ hb, lookup_cons_ne _ _ _ _ hb,
            lookup_updFirst a k f rest, if_neg ha]

/-- the store-domain shape that matters for coverage is preserved by the
first-match update. -/
lemma isSome_lookup_updFirst {α : Type} (a k : String) (f : α → α) (l : List (String × α)) :
    (List.lookup a (updFirst k f l)).isSome = (List.lookup a l).isSome := by
  rw [lookup_updFirst]
  split
  · subst ‹a = k›
    cases List.lookup a l <;> rfl
  · rfl

lemma getItemCore_ti_none (env : JsEnv) (st : SwigState) (t k : String)
    (h : List.lookup t st.typeInfo = none) :
    getItemCore env st t k = (.ok emptyItem, st) := by
  unfold getItemCore
  rw [h]

lemma getItemCore_data_none (env : JsEnv) (st : SwigState) (t k : String) {ti : TypeInfo}
    (hti : List.lookup t st.typeInfo = some ti)
    (hd : List.lookup t st.data = none) :
    getItemCore env st t k = (.error (), st) := by
  unfold getItemCore
  rw [hti]
  dsimp only
  rw [hd]

lemma getItemCore_item_none (env : JsEnv) (st : SwigState) (t k : String) {ti : TypeInfo}
    {coll : Collection}
    (hti : List.lookup t st.typeInfo = some ti)
    (hd : List.lookup t st.data = some coll)
    (hit : List.lookup k coll = none) :
    getItemCore env st t k = (.ok emptyItem, st) := by
  unfold getItemCore
  rw [hti]
  dsimp only
  rw [hd]
  dsimp only
  rw [hit]

/-- `getItemCore` either leaves the state alone or performs the single
first-match item update of line 140. -/
lemma getItemCore_state (env : JsEnv) (st : SwigState) (t k : String) :
    (getItemCore env st t k).2 = st ∨
    ∃ item2 : Item, (getItemCore env st t k).2 =
      { st with data := updFirst t (updFirst k (fun _ => item2)) st.data } := by
  cases hti : List.lookup t st.typeInfo with
  | none => exact Or.inl (by rw [getItemCore_ti_none env st t k hti])
  | some ti =>
    cases hd : List.lookup t st.data with
    | none => exact Or.inl (by rw [getItemCore_data_none env st t k hti hd])
    | some coll =>
      cases hit : List.lookup k coll with
      | none => exact Or.inl (by rw [getItemCore_item_none env st t k hti hd hit])
      | some item =>
        rw [getItemCore_found env st t k hti hd hit]
        by_cases hv : (ti.oneOff || pubOk env item) = true
        · rw [if_pos hv]
          exact Or.inr ⟨{ item with tyF := some t }, rfl⟩
        · rw [if_neg hv]
          exact Or.inl rfl

/-- `getItem` either returns the empty sentinel with the state untouched, or
delegates to `getItemCore`. -/
lemma getItem_cases (env : JsEnv) (st : SwigState) (ty : JsArg) (key : Option String) :
    getItem env st ty key = (.ok emptyItem, st) ∨
    ∃ t k, getItem env st ty key = getItemCore env st t k := by
  unfold getItem
  by_cases h1 : (!(jsTruthyArg ty)) = true
  · rw [if_pos h1]
    exact Or.inl rfl
  · rw [if_neg h1]
    by_cases h2 : truthyS key = true
    · rw [if_pos h2]
      exact Or.inr ⟨_, _, rfl⟩
    · rw [if_neg h2]
      cases ty with
      | undef => exact Or.inl rfl
      | str s =>
        dsimp only
        cases hsp : jsSplit2 s with
        | nil => exact Or.inl rfl
        | cons t rest =>
          cases rest with
          | nil => exact Or.inl rfl
          | cons k rest2 =>
            cases rest2 with
            | nil => exact Or.inr ⟨t, k, rfl⟩
            | cons x rest3 => exact Or.inl rfl
      | arr l =>
        dsimp only
        cases l with
        | nil => exact Or.inl rfl
        | cons s ls =>
          dsimp only
          cases hsp : jsSplit2 s with
          | nil => exact Or.inl rfl
          | cons t rest =>
            cases rest with
            | nil => exact Or.inl rfl
            | cons k rest2 =>
              cases rest2 with
              | nil => exact Or.inr ⟨t, k, rfl⟩
              | cons x rest3 => exact Or.inl rfl

/-- under a covering store, the `TypeError` path of line 121 is unreachable. -/
lemma getItemCore_no_error (env : JsEnv) (st : SwigState) (t k : String)
    (h : storeCovered st) : (getItemCore env st t k).1 ≠ .error () := by
  cases hti : List.lookup t st.typeInfo with
  | none =>
    rw [getItemCore_ti_none env st t k hti]
    simp
  | some ti =>
    cases hd : List.lookup t st.data with
    | none =>
      have hmem := mem_of_lookup hti
      have := h (t, ti) hmem
      rw [hd] at this
      exact absurd this (by simp)
    | some coll =>
      cases hit : List.lookup k coll with
      | none =>
        rw [getItemCore_item_none env st t k hti hd hit]
        simp
      | some item =>
        rw [getItemCore_found env st t k hti hd hit]
        by_cases hv : (ti.oneOff || pubOk env item) = true
        · rw [if_pos hv]
          simp
        · rw [if_neg hv]
          simp

lemma getItem_no_error (env : JsEnv) (st : SwigState) (ty : JsArg) (key : Option String)
    (h : storeCovered st) : (getItem env st ty key).1 ≠ .error () := by
  rcases getItem_cases env st ty key with hc | ⟨t, k, hc⟩
  · rw [hc]
    simp
  · rw [hc]
    exact getItemCore_no_error env st t k h

/-- coverage survives a `getItem` call: the key structure of the store and
the whole type-metadata table are untouched. -/
lemma storeCovered_getItem (env : JsEnv) (st : SwigState) (ty : JsArg)
    (key : Option String) (h : storeCovered st) :
    storeCovered (getItem env st ty key).2 := by
  have hstate : (getItem env st ty key).2 = st ∨
      ∃ (t k : String) (item2 : Item), (getItem env st ty key).2 =
        { st with data := updFirst t (updFirst k (fun _ => item2)) st.data } := by
    rcases getItem_cases env st ty key with hc | ⟨t, k, hc⟩
    · rw [hc]
      exact Or.inl rfl
    · rw [hc]
      rcases getItemCore_state env st t k with h1 | ⟨item2, h1⟩
      · exact Or.inl h1
      · exact Or.inr ⟨t, k, item2, h1⟩
  rcases hstate with h1 | ⟨t, k, item2, h1⟩
  · rw [h1]
    exact h
  · rw [h1]
    intro p hp
    show (List.lookup p.1 (updFirst t (updFirst k (fun _ => item2)) st.data)).isSome
    rw [isSome_lookup_updFirst]
    exact h p hp

lemma getItemsGo_no_error (env : JsEnv) : ∀ (l : List JsArg) (st : SwigState)
    (acc : List Item), storeCovered st → (getItemsGo env l st acc).1 ≠ .error ()
  | [], st, acc, h => by
    simp [getItemsGo]
  | itm :: rest, st, acc, h => by
    unfold getItemsGo
    rcases hgi : getItem env st itm none with ⟨r, st'⟩
    have hcov' : storeCovered st' := by
      have := storeCovered_getItem env st itm none h
      rw [hgi] at this
      exact this
    cases r with
    | error e =>
      have := getItem_no_error env st itm none h
      rw [hgi] at this
      exact absurd rfl this
    | ok obj =>
      dsimp only
      by_cases he : obj.isEmpty
      · rw [if_pos he]
        exact getItemsGo_no_error env rest st' acc hcov'
      · rw [if_neg he]
        rcases hgi2 : getItem env st' itm none with ⟨r2, st''⟩
        have hcov'' : storeCovered st'' := by
          have := storeCovered_getItem env st' itm none hcov'
          rw [hgi2] at this
          exact this
        cases r2 with
        | error e =>
          have := getItem_no_error env st' itm none hcov'
          rw [hgi2] at this
          exact absurd rfl this
        | ok obj2 =>
          exact getItemsGo_no_error env rest st'' (acc ++ [obj2]) hcov''

/-- C2 counterexample: with slug `t` in the type-metadata table but missing
from the content store, `getItem` raises (a `TypeError` on line 121) instead
of degrading to the empty item. -/
theorem getItem_raises_uncovered :
    (getItem envW stUncov (.str "t") (some "k")).1 = .error () := by decide

/-- C2 (amended): as long as every slug in the type-metadata table is also
present in the content store, `getItem` and `getItems` never raise; the
uncovered-slug case is the only raising one. -/
theorem getItem_getItems_no_raise (env : JsEnv) (st : SwigState) (ty : JsArg)
    (key : Option String) (arr : Option (List JsArg)) (h : storeCovered st) :
    (getItem env st ty key).1 ≠ .error () ∧ (getItems env st arr).1 ≠ .error () := by
  refine ⟨getItem_no_error env st ty key h, ?_⟩
  cases arr with
  | none => simp [getItems]
  | some l =>
    unfold getItems
    exact getItemsGo_no_error env l st [] h

/-- C2 witness: the covering hypothesis holds on the concrete store `stW`,
and there `getItem`/`getItems` do not raise. -/
theorem getItem_getItems_no_raise_witness :
    storeCovered stW ∧
    ((getItem envW stW (.str "a") (some "missing")).1 ≠ .error () ∧
      (getItems envW stW (some [.str "a k1"])).1 ≠ .error ()) := by
  have hcov : storeCovered stW := by decide
  exact ⟨hcov, getItem_getItems_no_raise envW stW (.str "a") (some "missing")
    (some [.str "a k1"]) hcov⟩

/-! ## oneOff types in getCombined (claim C6) -/

/-- C6 counterexample: a non-`oneOff` type listed after a `oneOff` type does
not append — the call raises (line 208 invokes `.concat` on the plain object
that line 185 put into the accumulator). -/
theorem getCombined_oneOff_then_normal_raises :
    (getCombined envW stOne ["o", "c"]).1 = .error () := by decide

/-- C6 (amended): a `oneOff` slug replaces the accumulated result with its
store object verbatim (whatever had accumulated before); a single `oneOff`
slug therefore yields the store object, not wrapped in an array; but any
non-`oneOff` slug listed after a `oneOff` one makes the call raise a
`TypeError` instead of appending. -/
theorem getCombined_oneOff (env : JsEnv) :
    (∀ (rest : List String) (st : SwigState) (acc : Combined) (o : String),
        isOneOff st o = true →
        combineGo env (o :: rest) st acc =
          combineGo env rest st (.obj ((List.lookup o st.data).getD []))) ∧
    (∀ (st : SwigState) (o : String) (coll : Collection),
        isOneOff st o = true →
        List.lookup o st.data = some coll →
        List.lookup o st.cachedData = none →
        (getCombined env st [o]).1 = .ok (.obj coll)) ∧
    (∀ (st : SwigState) (o c : String) (rest : List String),
        isOneOff st o = true →
        isOneOff st c = false →
        List.lookup (jsJoin (o :: c :: rest)) st.cachedData = none →
        (getCombined env st (o :: c :: rest)).1 = .error ()) := by
  refine ⟨?_, ?_, ?_⟩
  · intro rest st acc o ho
    conv_lhs => rw [combineGo.eq_def]
    dsimp only
    rw [if_pos ho]
  · intro st o coll ho hcoll hcache
    have h := (getCombined_single env st o hcache).1 ho
    rw [h, hcoll]
    rfl
  · intro st o c rest ho hc hm
    rw [getCombined_cache_miss env st (o :: c :: rest) hm]
    have hgo : combineGo env (o :: c :: rest) st (.arr []) =
        (.error (), { st with data := updFirst c (annotateColl c) st.data }) := by
      conv_lhs => rw [combineGo.eq_def]
      dsimp only
      rw [if_pos ho]
      conv_lhs => rw [combineGo.eq_def]
      dsimp only
      rw [if_neg (by rw [hc]; exact Bool.false_ne_true)]
    rw [hgo]

/-- C6 witness: on the concrete store, the single `oneOff` slug returns the
store object verbatim. -/
theorem getCombined_oneOff_witness :
    (getCombined envW stOne ["o"]).1 = .ok (.obj [("f", itNoDate)]) :=
  (getCombined_oneOff envW).2.1 stOne "o" [("f", itNoDate)] (by decide) (by decide)
    (by decide)

/-! ## Relation strings (claim C7) -/

lemma splitSp_no_space : ∀ (l cur : List Char), (∀ c ∈ l, c ≠ ' ') →
    splitSp l cur = [String.mk (cur.reverse ++ l)]
  | [], cur, _ => by
    rw [splitSp]
    simp
  | c :: rest, cur, h => by
    have hc : c ≠ ' ' := h c (List.mem_cons_self _ _)
    rw [splitSp, if_neg hc,
      splitSp_no_space rest (c :: cur) (fun x hx => h x (List.mem_cons_of_mem _ hx))]
    simp

lemma splitSp_append : ∀ (t k cur : List Char), (∀ c ∈ t, c ≠ ' ') →
    splitSp (t ++ ' ' :: k) cur = String.mk (cur.reverse ++ t) :: splitSp k []
  | [], k, cur, _ => by
    rw [List.nil_append, splitSp, if_pos rfl]
    simp
  | c :: t', k, cur, h => by
    have hc : c ≠ ' ' := h c (List.mem_cons_self _ _)
    rw [List.cons_append, splitSp, if_neg hc,
      splitSp_append t' k (c :: cur) (fun x hx => h x (List.mem_cons_of_mem _ hx))]
    simp

/-- on a space-free type token and a space-free key token, the limit-2 split
of `"type key"` recovers exactly the two tokens. -/
lemma jsSplit2_join (t k : String) (ht : ∀ c ∈ t.data, c ≠ ' ')
    (hk : ∀ c ∈ k.data, c ≠ ' ') :
    jsSplit2 (t ++ " " ++ k) = [t, k] := by
  unfold jsSplit2
  have hdata : (t ++ " " ++ k).data = t.data ++ ' ' :: k.data := by
    rw [String.data_append, String.data_append]
    rw [show (" " : String).data = [' '] from by decide]
    simp
  rw [hdata, splitSp_append t.data k.data [] ht, splitSp_no_space k.data [] hk]
  rfl

/-- the empty relation string splits into a single empty token. -/
lemma jsSplit2_empty : jsSplit2 "" = [""] := rfl

/-- a relation string that resolves to two tokens sends `getItem` into the
core lookup with those tokens. -/
lemma getItem_relation (env : JsEnv) (st : SwigState) (s t k : String)
    (h : jsSplit2 s = [t, k]) :
    getItem env st (.str s) none = getItemCore env st t k := by
  have hs : s ≠ "" := by
    intro he
    subst he
    rw [jsSplit2_empty] at h
    exact absurd h (by simp)
  unfold getItem
  have h1 : jsTruthyArg (.str s) = true := by simp [jsTruthyArg, hs]
  rw [if_neg (show ¬((!(jsTruthyArg (JsArg.str s))) = true) from by rw [h1]; simp)]
  rw [if_neg (show ¬(truthyS (none : Option String) = true) from by simp [truthyS])]
  dsimp only
  rw [h]

/-- C7 counterexample: the relation string `"t a b"` is resolved with key
`"a"` (JS `split(" ", 2)` truncates), not with the remainder `"a b"`; on a
store where the two keys hold different items the two readings disagree. -/
theorem relation_remainder_refuted :
    (getItem envW stSpace (.str "t a b") none).1 =
      (getItem envW stSpace (.str "t") (some "a")).1 ∧
    (getItem envW stSpace (.str "t a b") none).1 ≠
      (getItem envW stSpace (.str "t") (some "a b")).1 := by
  constructor
  · decide
  · decide

/-- C7 (amended): the one-argument relation form and the two-argument form
agree — `getItem("companies 42") = getItem("companies", "42")` over every
store, and in general for any space-free type and key tokens; a relation
string with no space yields the empty item; but when the remainder after the
first space itself contains spaces, the key is the token up to the second
space (`"t a b"` reads as key `"a"`), not the whole remainder. -/
theorem relation_forms (env : JsEnv) (st : SwigState) :
    (getItem env st (.str "companies 42") none =
      getItem env st (.str "companies") (some "42")) ∧
    (∀ (t k : String), (∀ c ∈ t.data, c ≠ ' ') → t ≠ "" →
        (∀ c ∈ k.data, c ≠ ' ') → k ≠ "" →
        getItem env st (.str (t ++ " " ++ k)) none = getItem env st (.str t) (some k)) ∧
    (∀ s2 : String, (∀ c ∈ s2.data, c ≠ ' ') →
        (getItem env st (.str s2) none).1 = .ok emptyItem) ∧
    (getItem env st (.str "t a b") none = getItem env st (.str "t") (some "a")) := by
  refine ⟨?_, ?_, ?_, ?_⟩
  · rw [getItem_relation env st "companies 42" "companies" "42" (by decide),
      getItem_two_args env st "companies" "42" (by decide) (by decide)]
  · intro t k ht hte hk hke
    rw [getItem_relation env st (t ++ " " ++ k) t k (jsSplit2_join t k ht hk),
      getItem_two_args env st t k hte hke]
  · intro s2 hs2
    by_cases he : s2 = ""
    · subst he
      rfl
    · unfold getItem
      have h1 : jsTruthyArg (.str s2) = true := by simp [jsTruthyArg, he]
      rw [if_neg (show ¬((!(jsTruthyArg (JsArg.str s2))) = true) from by rw [h1]; simp)]
      rw [if_neg (show ¬(truthyS (none : Option String) = true) from by simp [truthyS])]
      dsimp only
      have hsp : jsSplit2 s2 = [s2] := by
        unfold jsSplit2
        rw [splitSp_no_space s2.data [] hs2]
        rfl
      rw [hsp]
  · rw [getItem_relation env st "t a b" "t" "a" (by decide),
      getItem_two_args env st "t" "a" (by decide) (by decide)]

/-- C7 witness: the two forms agree at a concrete space-free type/key pair
and store. -/
theorem relation_forms_witness :
    getItem envW stBound (.str ("companies" ++ " " ++ "e")) none =
      getItem envW stBound (.str "companies") (some "e") :=
  (relation_forms envW stBound).2.1 "companies" "e" (by decide) (by decide) (by decide)
    (by decide)

/-! ## Store annotation side effects (claims C9) -/

lemma annotateColl_keys (t : String) : ∀ coll : Collection,
    (annotateColl t coll).map Prod.fst = coll.map Prod.fst
  | [] => rfl
  | (k', v) :: rest => by
    rw [annotateColl_cons]
    by_cases hu : underscoreFirst k'
    · rw [if_pos hu]
      simp [annotateColl_keys t rest]
    · rw [if_neg hu]
      simp [annotateColl_keys t rest]

/-- the in-place annotation only sets the `_id`/`_type` fields; every other
field of every stored item survives. -/
lemma annotateColl_lookup (t : String) : ∀ (coll : Collection) (k' : String) (it' : Item),
    List.lookup k' (annotateColl t coll) = some it' →
    ∃ it0, List.lookup k' coll = some it0 ∧ it'.publish_date = it0.publish_date ∧
      it'.slug = it0.slug ∧ it'.name = it0.name ∧ it'.others = it0.others
  | [], k', it', h => by
    rw [show annotateColl t [] = [] from rfl] at h
    exact absurd h (by simp [List.lookup])
  | (kk, v) :: rest, k', it', h => by
    rw [annotateColl_cons] at h
    by_cases hk : k' = kk
    · subst hk
      by_cases hu : underscoreFirst k'
      · rw [if_pos hu, lookup_cons_self] at h
        injection h with h
        exact ⟨v, lookup_cons_self k' v rest, by rw [← h], by rw [← h], by rw [← h],
          by rw [← h]⟩
      · rw [if_neg hu, lookup_cons_self] at h
        injection h with h
        exact ⟨v, lookup_cons_self k' v rest, by rw [← h], by rw [← h], by rw [← h],
          by rw [← h]⟩
    · have hb : (k' == kk) = false := by simpa using hk
      by_cases hu : underscoreFirst kk
      · rw [if_pos hu, lookup_cons_ne _ _ _ _ hb] at h
        rcases annotateColl_lookup t rest k' it' h with ⟨it0, h0, h1, h2, h3, h4⟩
        exact ⟨it0, by rw [lookup_cons_ne _ _ _ _ hb]; exact h0, h1, h2, h3, h4⟩
      · rw [if_neg hu, lookup_cons_ne _ _ _ _ hb] at h
        rcases annotateColl_lookup t rest k' it' h with ⟨it0, h0, h1, h2, h3, h4⟩
        exact ⟨it0, by rw [lookup_cons_ne _ _ _ _ hb]; exact h0, h1, h2, h3, h4⟩

/-- C9 counterexample: `getItem` does write onto the store — after a
successful lookup the stored item now carries the `_type` annotation, so the
content store is not left unchanged. -/
theorem getItem_mutates_store :
    (getItem envW stMut (.str "t") (some "k")).2.data ≠ stMut.data := by decide

/-- C9 (amended): the annotations are written onto the objects held in the
store.  A successful `getItem` returns the stored item with `_type` set and
updates that one store slot to the very same annotated item (no other field
and no other slot changes); an unsuccessful `getItem` leaves the state
untouched; `getCombined` on a non-`oneOff` type writes the `_id`/`_type`
annotations onto every non-underscore-keyed item of that type in the store,
preserving the key structure and all other fields. -/
theorem store_writeback (env : JsEnv) :
    (∀ (st : SwigState) (t k : String) (ti : TypeInfo) (coll : Collection) (item : Item),
        t ≠ "" → k ≠ "" →
        List.lookup t st.typeInfo = some ti →
        List.lookup t st.data = some coll →
        List.lookup k coll = some item →
        (ti.oneOff || pubOk env item) = true →
        getItem env st (.str t) (some k) =
          (.ok { item with tyF := some t },
           { st with data := updFirst t (updFirst k
               (fun _ => { item with tyF := some t })) st.data })) ∧
    (∀ (st : SwigState) (ty : JsArg) (key : Option String),
        ((getItem env st ty key).1 = .ok emptyItem ∨
            (getItem env st ty key).1 = .error ()) →
        (getItem env st ty key).2 = st) ∧
    (∀ (st : SwigState) (t : String),
        List.lookup t st.cachedData = none →
        isOneOff st t = false →
        (getCombined env st [t]).2.data = updFirst t (annotateColl t) st.data) ∧
    (∀ (t : String) (coll : Collection),
        (annotateColl t coll).map Prod.fst = coll.map Prod.fst) ∧
    (∀ (t : String) (coll : Collection) (k' : String) (it' : Item),
        List.lookup k' (annotateColl t coll) = some it' →
        ∃ it0, List.lookup k' coll = some it0 ∧ it'.publish_date = it0.publish_date ∧
          it'.slug = it0.slug ∧ it'.name = it0.name ∧ it'.others = it0.others) := by
  refine ⟨?_, ?_, ?_, annotateColl_keys, annotateColl_lookup⟩
  · intro st t k ti coll item ht hk hti hcoll hitem hvis
    rw [getItem_two_args env st t k ht hk, getItemCore_found env st t k hti hcoll hitem,
      if_pos hvis]
  · intro st ty key hres
    rcases getItem_cases env st ty key with hc | ⟨t, k, hc⟩
    · rw [hc]
    · rw [hc] at hres ⊢
      cases hti : List.lookup t st.typeInfo with
      | none => rw [getItemCore_ti_none env st t k hti]
      | some ti =>
        cases hd : List.lookup t st.data with
        | none => rw [getItemCore_data_none env st t k hti hd]
        | some coll =>
          cases hit : List.lookup k coll with
          | none => rw [getItemCore_item_none env st t k hti hd hit]
          | some item =>
            rw [getItemCore_found env st t k hti hd hit] at hres ⊢
            by_cases hv : (ti.oneOff || pubOk env item) = true
            · rw [if_pos hv] at hres
              rcases hres with hres | hres
              · injection hres with hres
                have := congrArg Item.tyF hres
                simp [emptyItem] at this
              · exact absurd hres (by simp)
            · rw [if_neg hv]
  · intro st t hcache hone
    have hj : jsJoin [t] = t := rfl
    rw [getCombined_cache_miss env st [t] (by rw [hj]; exact hcache)]
    have hgo : combineGo env [t] st (.arr []) =
        (.ok (.arr ([] ++ combinedItems env t ((List.lookup t st.data).getD []))),
         { st with data := updFirst t (annotateColl t) st.data }) := by
      conv_lhs => rw [combineGo.eq_def]
      dsimp only
      rw [if_neg (by rw [hone]; exact Bool.false_ne_true)]
      rfl
    rw [hgo]

/-- C9 witness: on the concrete `oneOff` store, a successful `getItem`
returns the annotated item and that exact update of the store. -/
theorem store_writeback_witness :
    getItem envW stMut (.str "t") (some "k") =
      (.ok { itNoDate with tyF := some "t" },
       { stMut with data := updFirst "t" (updFirst "k"
           (fun _ => { itNoDate with tyF := some "t" })) stMut.data }) :=
  (store_writeback envW).1 stMut "t" "k" { oneOff := true } [("k", itNoDate)] itNoDate
    (by decide) (by decide) (by decide) (by decide) (by decide) (by decide)

end LightbankCRM
